import Mathlib

/-!
Verification development for the Pyke build helper (`pyke.py`).

The Python source is shallowly embedded: the filesystem is a finite map
from component paths to file contents, Python dictionaries are association
lists, Python exceptions are an explicit error type threaded through each
operation, and the external compiler process is a parameter describing its
observable outcome (an exit status, or a failure to launch).
-/

namespace Pyke

/-- A filesystem path, as a list of components (what `os.path.join` builds). -/
abbrev Path := List String

/-- Python exception values raised by the embedded code, tagged by class.
`osError` is raised by `os.remove`/`os.rename`/`os.stat` failures,
`ioError` by failed `open` calls, `typeError` by `os.stat(None)` inside
`os.path.exists(None)`, `keyError` by a dict subscript or `%`-format with a
missing key, and `exception` is a plain `raise Exception(msg)`. -/
inductive PyErr where
  | osError (msg : String)
  | ioError (msg : String)
  | typeError (msg : String)
  | keyError (key : String)
  | exception (msg : String)
deriving DecidableEq, Repr

/-- A Python dictionary with string keys and values (the `assemblyInfo` dict). -/
abbrev Dict := List (String × String)

/-- `d[k]` as a total lookup: first binding wins. -/
def dictLookup : Dict → String → Option String
  | [], _ => none
  | (k', v) :: rest, k => if k' = k then some v else dictLookup rest k

/-- Remove every binding of key `k`. -/
def dictErase : Dict → String → Dict
  | [], _ => []
  | (k', v) :: rest, k => if k' = k then dictErase rest k else (k', v) :: dictErase rest k

/-- `d[k] = v`: in-place dictionary assignment (other keys keep their values). -/
def dictSet (d : Dict) (k v : String) : Dict := (k, v) :: dictErase d k

/-- The filesystem: an association list from paths to file contents.
A path absent from the list does not exist on disk. -/
abbrev FS := List (Path × String)

/-- Content of the file at `p`, if it exists. -/
def fsLookup : FS → Path → Option String
  | [], _ => none
  | (q, c) :: rest, p => if q = p then some c else fsLookup rest p

/-- Delete every entry at path `p`. -/
def fsRemove : FS → Path → FS
  | [], _ => []
  | (q, c) :: rest, p => if q = p then fsRemove rest p else (q, c) :: fsRemove rest p

/-- Create or overwrite the file at `p` with content `c`. -/
def fsWrite (fs : FS) (p : Path) (c : String) : FS := (p, c) :: fsRemove fs p

/-- `"%s.build-temp" % path`: the backup name appends to the final path
component, since the Python code formats the whole path string. -/
def buildTemp (p : Path) : Path := p.dropLast ++ [(p.getLast?.getD "") ++ ".build-temp"]

/-- Render a component path the way Python's path strings appear in messages. -/
def pathToString (p : Path) : String := String.intercalate "/" p

/-- An instant of wall-clock time, with the fields `datetime.now()` exposes
that `strftime("%Y.%m.%d.%H%M")` reads. -/
structure Instant where
  year : Nat
  month : Nat
  day : Nat
  hour : Nat
  minute : Nat
deriving DecidableEq, Repr

/-- `strftime` zero-pads `%m`, `%d`, `%H` and `%M` to two digits. -/
def pad2 (n : Nat) : String := if n < 10 then "0" ++ toString n else toString n

/-- `getVersion`: formats the given instant as `YYYY.MM.DD.HHMM`, translating
`now.strftime("%Y.%m.%d.%H%M")` (the clock reading is passed in explicitly). -/
def getVersion (now : Instant) : String :=
  toString now.year ++ "." ++ pad2 now.month ++ "." ++ pad2 now.day ++ "."
    ++ pad2 now.hour ++ pad2 now.minute

/-- Observable events recorded while `build` runs: the external compiler
returning an exit status, and an entry into `restoreOriginalAssemblyInfoFiles`. -/
inductive Event where
  | compilerRun (code : Int)
  | restoreAttempt
deriving DecidableEq, Repr

/-- Outcome of `subprocess.call` on the external compiler: either the process
runs and exits with a status code, or it cannot be launched (in Python this
raises `OSError` out of `subprocess.call`). -/
inductive CompilerBehavior where
  | exits (code : Int)
  | launchFailure
deriving DecidableEq, Repr

/-- The `pyke` object together with the filesystem it acts on and the events
recorded so far.  `assemblyInfoFiles` is the list captured by `__init__`,
`user` is `getpass.getuser()`, `now` the wall clock read by `getVersion`,
`assemblyInfo` and `version` the attributes `build` assigns. -/
structure PykeState where
  basedir : Path
  buildOutputDir : Path
  fs : FS
  assemblyInfoFiles : List Path
  user : String
  now : Instant
  assemblyInfo : Dict
  version : String
  events : List Event
deriving DecidableEq, Repr

/-- Result of running a (possibly raising) statement: the state reached, and
the exception propagating out of it, if any.  The state is kept on the error
path because the filesystem mutations made before the raise persist. -/
structure Run where
  state : PykeState
  err : Option PyErr
deriving DecidableEq, Repr

/-- A normally-completed statement. -/
def okRun (s : PykeState) : Run := { state := s, err := none }

/-- A statement that raised `e` with the filesystem in state `s`. -/
def errRun (s : PykeState) (e : PyErr) : Run := { state := s, err := some e }

/-- Sequential composition: if the first statement raised, the rest of the
block is skipped and the exception keeps propagating. -/
def andThen (r : Run) (f : PykeState → Run) : Run :=
  match r.err with
  | some _ => r
  | none => f r.state

/-- Record an event. -/
def addEvent (s : PykeState) (e : Event) : PykeState := { s with events := e :: s.events }

/-- `except IOError: raise Exception(msg)` around a block: only `IOError` is
converted; `OSError`, `KeyError` and the rest propagate unchanged.  (In
Python 2, `os.remove` and `os.rename` raise `OSError`, not `IOError`.) -/
def catchIOErrorWith (r : Run) (msg : String) : Run :=
  match r.err with
  | some (PyErr.ioError _) => errRun r.state (PyErr.exception msg)
  | _ => r

/-- `os.remove(p)`: fails with `OSError` when the file does not exist. -/
def stRemove (s : PykeState) (p : Path) : Run :=
  match fsLookup s.fs p with
  | some _ => okRun { s with fs := fsRemove s.fs p }
  | none => errRun s (PyErr.osError "No such file or directory")

/-- `os.rename(src, dst)`: fails with `OSError` when the source does not
exist; an existing destination is overwritten (POSIX semantics). -/
def stRename (s : PykeState) (src dst : Path) : Run :=
  match fsLookup s.fs src with
  | some c => okRun { s with fs := fsWrite (fsRemove s.fs src) dst c }
  | none => errRun s (PyErr.osError "No such file or directory")

/-- `open(p, "w")` / `writelines`: creates or truncates the file. -/
def stWrite (s : PykeState) (p : Path) (c : String) : Run :=
  okRun { s with fs := fsWrite s.fs p c }

/-- `d[k]` as used by `%`-formatting: raises `KeyError` when absent. -/
def lookupKey (d : Dict) (k : String) : Except PyErr String :=
  match dictLookup d k with
  | some v => Except.ok v
  | none => Except.error (PyErr.keyError k)

/-- The fixed `AssemblyInfo.cs` template after `formatBlock` has stripped the
common indentation and the surrounding blank lines, with the ten
`%(key)s` holes filled in. -/
def assemblyInfoTemplate (cls com title desc comp prod copy ver iver fver : String) : String :=
  "using System;\n" ++
  "using System.Reflection;\n" ++
  "using System.Runtime.CompilerServices;\n" ++
  "using System.Runtime.InteropServices;\n" ++
  "\n" ++
  "[assembly: CLSCompliantAttribute(" ++ cls ++ ")]\n" ++
  "[assembly: ComVisibleAttribute(" ++ com ++ ")]\n" ++
  "[assembly: AssemblyTitleAttribute(\"" ++ title ++ "\")]\n" ++
  "[assembly: AssemblyDescriptionAttribute(\"" ++ desc ++ "\")]\n" ++
  "[assembly: AssemblyCompanyAttribute(\"" ++ comp ++ "\")]\n" ++
  "[assembly: AssemblyProductAttribute(\"" ++ prod ++ "\")]\n" ++
  "[assembly: AssemblyCopyrightAttribute(\"" ++ copy ++ "\")]\n" ++
  "[assembly: AssemblyVersionAttribute(\"" ++ ver ++ "\")]\n" ++
  "[assembly: AssemblyInformationalVersionAttribute(\"" ++ iver ++ "\")]\n" ++
  "[assembly: AssemblyFileVersionAttribute(\"" ++ fver ++ "\")]\n" ++
  "[assembly: AssemblyDelaySignAttribute(false)]\n"

/-- `formatAssemblyInfoFileContent`: `template % assemblyInfo`, reading the
keys in template order and raising `KeyError` at the first missing one.
(The Python method has an `assemblyInfo` parameter but formats
`self.assemblyInfo`; the dict passed here is that attribute.) -/
def formatAssemblyInfoFileContent (d : Dict) : Except PyErr String := do
  let cls ← lookupKey d "ClsCompliant"
  let com ← lookupKey d "ComVisible"
  let title ← lookupKey d "Title"
  let desc ← lookupKey d "Description"
  let comp ← lookupKey d "Company"
  let prod ← lookupKey d "Product"
  let copy ← lookupKey d "Copyright"
  let ver ← lookupKey d "Version"
  let iver ← lookupKey d "InformationalVersion"
  let fver ← lookupKey d "FileVersion"
  pure (assemblyInfoTemplate cls com title desc comp prod copy ver iver fver)

/-- Per-file body of `generateAssemblyInfoFiles`: rename the original to its
`.build-temp` backup, open the original path for writing (leaving it empty),
format the content from `self.assemblyInfo` (which may raise `KeyError`), and
write it.  `except IOError` wraps the whole body. -/
def generateStep (s : PykeState) (f : Path) : Run :=
  catchIOErrorWith
    (andThen (stRename s f (buildTemp f)) (fun s1 =>
      andThen (stWrite s1 f "") (fun s2 =>
        match formatAssemblyInfoFileContent s2.assemblyInfo with
        | Except.error e => errRun s2 e
        | Except.ok c => stWrite s2 f c)))
    "Error generating AssemblyInfo file"

/-- The `for asmInfoFile in self.assemblyInfoFiles` loop of
`generateAssemblyInfoFiles`. -/
def generateLoop : List Path → PykeState → Run
  | [], s => okRun s
  | f :: rest, s => andThen (generateStep s f) (generateLoop rest)

/-- `generateAssemblyInfoFiles`: stage every discovered metadata file. -/
def generateAssemblyInfoFiles (s : PykeState) : Run :=
  generateLoop s.assemblyInfoFiles s

/-- Per-file body of `restoreOriginalAssemblyInfoFiles`: delete the generated
file, rename the backup over the original path.  The `except IOError` clause
never fires for these calls (they raise `OSError`), so failures propagate raw. -/
def restoreStep (s : PykeState) (f : Path) : Run :=
  catchIOErrorWith
    (andThen (stRemove s f) (fun s1 => stRename s1 (buildTemp f) f))
    ("Error restoring original AssemblyInfo file: " ++ pathToString f)

/-- The `for asmInfoFile in self.assemblyInfoFiles` loop of
`restoreOriginalAssemblyInfoFiles`: the first raising step aborts the loop. -/
def restoreLoop : List Path → PykeState → Run
  | [], s => okRun s
  | f :: rest, s => andThen (restoreStep s f) (restoreLoop rest)

/-- `restoreOriginalAssemblyInfoFiles`; entering it is recorded as a
`restoreAttempt` event. -/
def restoreOriginalAssemblyInfoFiles (s : PykeState) : Run :=
  restoreLoop s.assemblyInfoFiles (addEvent s Event.restoreAttempt)

/-- `genericpath.exists` applied to a value that may be Python's `None`:
`os.stat(None)` raises `TypeError`, which the `except os.error` clause does
not catch, so `os.path.exists(None)` raises rather than returning `False`. -/
def osPathExists (fs : FS) : Option Path → Except PyErr Bool
  | none => Except.error (PyErr.typeError "coercing to Unicode: need string or buffer, NoneType found")
  | some p => Except.ok (fsLookup fs p).isSome

/-- `getProjectFilePath`: walk the tree under `basedir` and return the first
file whose name matches `filename` (`fnmatch` with a wildcard-free pattern is
an exact name match); implicitly returns Python `None` when nothing matches. -/
def findProjectFile : FS → String → Option Path
  | [], _ => none
  | (q, _) :: rest, nm => if q.getLast? = some nm then some q else findProjectFile rest nm

/-- The project-file resolution step of `compileProject` (lines 247-256):
use `<basedir>/<projectFile>` if it exists, otherwise search recursively;
then guard with `if not os.path.exists(projectFilePath)`. -/
def resolveProjectFilePath (fs : FS) (basedir : Path) (pf : String) : Except PyErr Path :=
  let direct := basedir ++ [pf]
  let projectFilePath : Option Path :=
    if (fsLookup fs direct).isSome then some direct else findProjectFile fs pf
  match projectFilePath, osPathExists fs projectFilePath with
  | _, Except.error e => Except.error e
  | some p, Except.ok true => Except.ok p
  | _, Except.ok _ => Except.error (PyErr.exception "Unable to resolve path to the given project file")

/-- `dir` strictly contains `p` (a file inside the directory, at any depth). -/
def pathUnder (dir p : Path) : Bool := dir.isPrefixOf p && decide (dir.length < p.length)

/-- The output-directory preparation of `compileProject`: `os.makedirs` when
absent (no effect on a file map), otherwise `cleanDir`, which removes every
file below the directory. -/
def cleanOutputDir (fs : FS) (dir : Path) : FS :=
  fs.filter (fun e => ! pathUnder dir e.1)

/-- `compileProject`: validate the argument, resolve the project file, prepare
the output directory, invoke the compiler, and — only when the exit status is
exactly `1` — run `restoreOriginalAssemblyInfoFiles` before returning. -/
def compileProject (s : PykeState) (projectFile : Option String)
    (compiler : CompilerBehavior) : Run :=
  match projectFile with
  | none => errRun s (PyErr.exception "No project or solution file specified")
  | some pf =>
    match resolveProjectFilePath s.fs s.basedir pf with
    | Except.error e => errRun s e
    | Except.ok _ =>
      let s1 : PykeState := { s with fs := cleanOutputDir s.fs s.buildOutputDir }
      match compiler with
      | CompilerBehavior.launchFailure => errRun s1 (PyErr.osError "cannot launch compiler executable")
      | CompilerBehavior.exits code =>
        let s2 := addEvent s1 (Event.compilerRun code)
        if code = 1 then restoreOriginalAssemblyInfoFiles s2 else okRun s2

/-- The default `assemblyInfo` dictionary `build` makes when none is passed. -/
def defaultAssemblyInfo (configuration : String) : Dict :=
  [("ClsCompliant", "false"), ("ComVisible", "false"), ("Title", ""),
   ("Description", ""), ("Company", ""), ("Product", ""), ("Copyright", ""),
   ("Version", "1.0"), ("InformationalVersion", "1.0 (" ++ configuration ++ ")"),
   ("FileVersion", "1.0")]

/-- `assemblyInfo or default`: the supplied dict is used as-is (by reference). -/
def effectiveAssemblyInfo (configuration : String) : Option Dict → Dict
  | none => defaultAssemblyInfo configuration
  | some d => d

/-- `str.lower()`: lower-cases every character. -/
def pyLower (s : String) : String := String.mk (s.data.map Char.toLower)

/-- The string appended to the title:
`" (compilation: <configuration>, built by: <user.lower()>)"`. -/
def annotateTitle (title configuration user : String) : String :=
  title ++ " (compilation: " ++ configuration ++ ", built by: " ++ pyLower user ++ ")"

/-- `self.version = version or self.getVersion()`. -/
def resolveVersion (s : PykeState) : Option String → String
  | none => getVersion s.now
  | some v => v

/-- `build(projectFile, configuration, assemblyInfo, version)`: validate,
pick the effective descriptor and annotate its `Title` in place, resolve the
version token, stage the metadata files, compile, then restore. -/
def build (s : PykeState) (projectFile : Option String) (configuration : String)
    (assemblyInfo : Option Dict) (version : Option String)
    (compiler : CompilerBehavior) : Run :=
  match projectFile with
  | none => errRun s (PyErr.exception "No project or solution file specified")
  | some pf =>
    let d0 := effectiveAssemblyInfo configuration assemblyInfo
    match dictLookup d0 "Title" with
    | none => errRun s (PyErr.keyError "Title")
    | some t =>
      let d1 := dictSet d0 "Title" (annotateTitle t configuration s.user)
      let s1 : PykeState := { s with assemblyInfo := d1, version := resolveVersion s version }
      andThen (generateAssemblyInfoFiles s1) (fun s2 =>
        andThen (compileProject s2 (some pf) compiler) (fun s3 =>
          restoreOriginalAssemblyInfoFiles s3))

mutual

/-- A directory: its plain files (name, content) and its subdirectories. -/
inductive DirTree where
  | node (files : List (String × String)) (subdirs : DirForest)

/-- The ordered list of named subdirectories of a directory. -/
inductive DirForest where
  | nil
  | cons (name : String) (tree : DirTree) (rest : DirForest)

end

/-- `fnmatch.filter(names, pat)` for a pattern without wildcard characters:
an exact name match. -/
def fnmatchFilter (names : List String) (pat : String) : List String :=
  names.filter (fun n => n == pat)

mutual

/-- `getAssemblyInfoFiles`: `os.walk` from the directory reached by `pre`,
collecting `fnmatch.filter(files, "AssemblyInfo.cs")` in each directory
(current directory first, then subdirectories, as top-down walk order). -/
def getAssemblyInfoFilesT (pre : Path) : DirTree → List Path
  | DirTree.node files subdirs =>
    (fnmatchFilter (files.map Prod.fst) "AssemblyInfo.cs").map (fun n => pre ++ [n])
      ++ getAssemblyInfoFilesF pre subdirs

/-- The walk continued over a list of subdirectories. -/
def getAssemblyInfoFilesF (pre : Path) : DirForest → List Path
  | DirForest.nil => []
  | DirForest.cons d t rest =>
    getAssemblyInfoFilesT (pre ++ [d]) t ++ getAssemblyInfoFilesF pre rest

end

mutual

/-- Every file of the tree, as (full path, content) pairs — the filesystem
map the directory tree denotes. -/
def flattenT (pre : Path) : DirTree → FS
  | DirTree.node files subdirs =>
    files.map (fun e => (pre ++ [e.1], e.2)) ++ flattenF pre subdirs

/-- `flattenT` continued over a list of subdirectories. -/
def flattenF (pre : Path) : DirForest → FS
  | DirForest.nil => []
  | DirForest.cons d t rest => flattenT (pre ++ [d]) t ++ flattenF pre rest

end

/-- `pyke.__init__`: resolve the directories and capture the list of
`AssemblyInfo.cs` files found under `basedir` (the `user` argument stands for
`getpass.getuser()`, `now` for the wall clock). -/
def pykeInit (basedir : Path) (t : DirTree) (outputDir : Option Path)
    (user : String) (now : Instant) : PykeState :=
  { basedir := basedir
    buildOutputDir := outputDir.getD (basedir ++ ["BuildOutput"])
    fs := flattenT basedir t
    assemblyInfoFiles := getAssemblyInfoFilesT basedir t
    user := user
    now := now
    assemblyInfo := []
    version := ""
    events := [] }

/-! ### Basic lookup lemmas -/

theorem dictLookup_dictErase (d : Dict) (k q : String) :
    dictLookup (dictErase d k) q = if q = k then none else dictLookup d q := by
  induction d with
  | nil => simp [dictErase, dictLookup]
  | cons e rest ih =>
    obtain ⟨k', v⟩ := e
    by_cases h1 : k' = k <;> by_cases h2 : k' = q <;>
      simp only [dictErase, dictLookup, h1, h2, if_true, if_false, ih] <;>
      first
      | rfl
      | (subst_vars; simp_all [dictLookup])

theorem dictLookup_dictSet (d : Dict) (k v q : String) :
    dictLookup (dictSet d k v) q = if q = k then some v else dictLookup d q := by
  by_cases h : q = k <;> simp [dictSet, dictLookup, dictLookup_dictErase, h]
  intro h'
  exact absurd h'.symm h

theorem fsLookup_fsRemove (fs : FS) (p q : Path) :
    fsLookup (fsRemove fs p) q = if q = p then none else fsLookup fs q := by
  induction fs with
  | nil => simp [fsRemove, fsLookup]
  | cons e rest ih =>
    obtain ⟨r, c⟩ := e
    by_cases h1 : r = p <;> by_cases h2 : r = q <;>
      simp only [fsRemove, fsLookup, h1, h2, if_true, if_false, ih] <;>
      first
      | rfl
      | (subst_vars; simp_all [fsLookup])

theorem fsLookup_fsWrite (fs : FS) (p : Path) (c : String) (q : Path) :
    fsLookup (fsWrite fs p c) q = if q = p then some c else fsLookup fs q := by
  by_cases h : q = p <;> simp [fsWrite, fsLookup, fsLookup_fsRemove, h]
  intro h'
  exact absurd h'.symm h

theorem fsLookup_isSome_of_mem {fs : FS} {p : Path} {c : String}
    (h : (p, c) ∈ fs) : (fsLookup fs p).isSome = true := by
  induction fs with
  | nil => cases h
  | cons e rest ih =>
    obtain ⟨r, c'⟩ := e
    by_cases hr : r = p
    · simp [fsLookup, hr]
    · simp only [List.mem_cons] at h
      rcases h with h | h
      · cases h
        exact absurd rfl hr
      · simpa [fsLookup, hr] using ih h

theorem fsLookup_cleanOutputDir (fs : FS) (dir q : Path)
    (h : pathUnder dir q = false) :
    fsLookup (cleanOutputDir fs dir) q = fsLookup fs q := by
  induction fs with
  | nil => rfl
  | cons e rest ih =>
    obtain ⟨r, c⟩ := e
    by_cases hr : r = q
    · subst hr
      simp [cleanOutputDir, fsLookup, h, List.filter]
    · by_cases hu : pathUnder dir r <;>
        simp_all [cleanOutputDir, fsLookup, List.filter, hr]

/-! ### Backup-path lemmas

Discovered metadata files all have final component `"AssemblyInfo.cs"`;
their backups end in `"AssemblyInfo.cs.build-temp"`, so a backup never
collides with a metadata file, and distinct files have distinct backups. -/

theorem buildTemp_eq {p : Path} {n : String} (h : p.getLast? = some n) :
    buildTemp p = p.dropLast ++ [n ++ ".build-temp"] := by
  simp [buildTemp, h]

theorem buildTemp_getLast {p : Path} {n : String} (h : p.getLast? = some n) :
    (buildTemp p).getLast? = some (n ++ ".build-temp") := by
  rw [buildTemp_eq h]
  exact List.getLast?_concat _

theorem asm_ne_buildTemp {p q : Path}
    (hp : p.getLast? = some "AssemblyInfo.cs")
    (hq : q.getLast? = some "AssemblyInfo.cs") : p ≠ buildTemp q := by
  intro h
  rw [h, buildTemp_getLast hq] at hp
  simp at hp

theorem buildTemp_inj {p q : Path}
    (hp : p.getLast? = some "AssemblyInfo.cs")
    (hq : q.getLast? = some "AssemblyInfo.cs")
    (h : buildTemp p = buildTemp q) : p = q := by
  rw [buildTemp_eq hp, buildTemp_eq hq] at h
  have hd : p.dropLast = q.dropLast := List.append_cancel_right h
  calc p = p.dropLast ++ ["AssemblyInfo.cs"] := (List.dropLast_append_getLast? _ hp).symm
    _ = q.dropLast ++ ["AssemblyInfo.cs"] := by rw [hd]
    _ = q := List.dropLast_append_getLast? _ hq

/-! ### Frame lemmas: which state fields each operation can change -/

/-- All object attributes other than the filesystem and the event trace. -/
def sameMeta (a b : PykeState) : Prop :=
  a.basedir = b.basedir ∧ a.buildOutputDir = b.buildOutputDir ∧
  a.assemblyInfoFiles = b.assemblyInfoFiles ∧ a.user = b.user ∧
  a.now = b.now ∧ a.assemblyInfo = b.assemblyInfo ∧ a.version = b.version

theorem sameMeta_refl (a : PykeState) : sameMeta a a := by
  simp [sameMeta]

theorem sameMeta_trans {a b c : PykeState} (h1 : sameMeta a b) (h2 : sameMeta b c) :
    sameMeta a c := by
  obtain ⟨x1, x2, x3, x4, x5, x6, x7⟩ := h1
  obtain ⟨y1, y2, y3, y4, y5, y6, y7⟩ := h2
  exact ⟨x1.trans y1, x2.trans y2, x3.trans y3, x4.trans y4, x5.trans y5,
    x6.trans y6, x7.trans y7⟩

theorem andThen_of_err {r : Run} {e : PyErr} (h : r.err = some e) (f : PykeState → Run) :
    andThen r f = r := by
  unfold andThen
  rw [h]

theorem andThen_of_ok {r : Run} (h : r.err = none) (f : PykeState → Run) :
    andThen r f = f r.state := by
  unfold andThen
  rw [h]

theorem catchIOErrorWith_state (r : Run) (m : String) :
    (catchIOErrorWith r m).state = r.state := by
  unfold catchIOErrorWith
  cases h : r.err with
  | none => rfl
  | some e => cases e <;> rfl

theorem stRemove_meta (s : PykeState) (p : Path) :
    sameMeta (stRemove s p).state s ∧ (stRemove s p).state.events = s.events := by
  unfold stRemove
  cases fsLookup s.fs p <;> simp [sameMeta, okRun, errRun]

theorem stRename_meta (s : PykeState) (src dst : Path) :
    sameMeta (stRename s src dst).state s ∧ (stRename s src dst).state.events = s.events := by
  unfold stRename
  cases fsLookup s.fs src <;> simp [sameMeta, okRun, errRun]

theorem stWrite_meta (s : PykeState) (p : Path) (c : String) :
    sameMeta (stWrite s p c).state s ∧ (stWrite s p c).state.events = s.events := by
  simp [stWrite, sameMeta, okRun]

theorem generateStep_meta (s : PykeState) (f : Path) :
    sameMeta (generateStep s f).state s ∧ (generateStep s f).state.events = s.events := by
  unfold generateStep
  rw [catchIOErrorWith_state]
  cases h : fsLookup s.fs f with
  | none => simp [stRename, h, andThen, errRun, sameMeta]
  | some c =>
    simp only [stRename, h, andThen, okRun]
    cases hf : formatAssemblyInfoFileContent s.assemblyInfo with
    | error e => simp [stWrite, okRun, errRun, hf, sameMeta]
    | ok c' => simp [stWrite, okRun, errRun, hf, sameMeta]

theorem generateLoop_meta (l : List Path) (s : PykeState) :
    sameMeta (generateLoop l s).state s ∧ (generateLoop l s).state.events = s.events := by
  induction l generalizing s with
  | nil => exact ⟨sameMeta_refl s, rfl⟩
  | cons f rest ih =>
    unfold generateLoop
    cases h : (generateStep s f).err with
    | some e =>
      rw [andThen_of_err h]
      exact generateStep_meta s f
    | none =>
      rw [andThen_of_ok h]
      obtain ⟨hm, he⟩ := ih (generateStep s f).state
      exact ⟨sameMeta_trans hm (generateStep_meta s f).1,
        he.trans (generateStep_meta s f).2⟩

theorem restoreStep_meta (s : PykeState) (f : Path) :
    sameMeta (restoreStep s f).state s ∧ (restoreStep s f).state.events = s.events := by
  unfold restoreStep
  rw [catchIOErrorWith_state]
  cases h : fsLookup s.fs f with
  | none => simp [stRemove, h, andThen, errRun, sameMeta]
  | some c =>
    simp only [stRemove, h, andThen, okRun]
    cases h2 : fsLookup (fsRemove s.fs f) (buildTemp f) with
    | none => simp [stRename, h2, errRun, sameMeta]
    | some c2 => simp [stRename, h2, okRun, sameMeta]

theorem restoreLoop_meta (l : List Path) (s : PykeState) :
    sameMeta (restoreLoop l s).state s ∧ (restoreLoop l s).state.events = s.events := by
  induction l generalizing s with
  | nil => exact ⟨sameMeta_refl s, rfl⟩
  | cons f rest ih =>
    unfold restoreLoop
    cases h : (restoreStep s f).err with
    | some e =>
      rw [andThen_of_err h]
      exact restoreStep_meta s f
    | none =>
      rw [andThen_of_ok h]
      obtain ⟨hm, he⟩ := ih (restoreStep s f).state
      exact ⟨sameMeta_trans hm (restoreStep_meta s f).1,
        he.trans (restoreStep_meta s f).2⟩

theorem restoreOriginal_meta (s : PykeState) :
    sameMeta (restoreOriginalAssemblyInfoFiles s).state s ∧
    (restoreOriginalAssemblyInfoFiles s).state.events = Event.restoreAttempt :: s.events := by
  unfold restoreOriginalAssemblyInfoFiles
  obtain ⟨hm, he⟩ := restoreLoop_meta s.assemblyInfoFiles (addEvent s Event.restoreAttempt)
  refine ⟨sameMeta_trans hm ?_, he⟩
  simp [addEvent, sameMeta]

/-- Entering `restoreOriginalAssemblyInfoFiles` always leaves the
`restoreAttempt` event in the trace, whether or not the sweep then fails. -/
theorem restoreAttempt_mem_restoreOriginal (s : PykeState) :
    Event.restoreAttempt ∈ (restoreOriginalAssemblyInfoFiles s).state.events := by
  rw [(restoreOriginal_meta s).2]
  exact List.mem_cons_self _ _

theorem compileProject_meta (s : PykeState) (pf : Option String) (comp : CompilerBehavior) :
    sameMeta (compileProject s pf comp).state s := by
  unfold compileProject
  cases pf with
  | none => simp [errRun, sameMeta]
  | some pf =>
    cases h : resolveProjectFilePath s.fs s.basedir pf with
    | error e => simp [h, errRun, sameMeta]
    | ok p =>
      cases comp with
      | launchFailure => simp [h, errRun, sameMeta]
      | exits code =>
        by_cases hc : code = 1
        · simp only [h, hc, if_true]
          refine sameMeta_trans (restoreOriginal_meta _).1 ?_
          simp [addEvent, sameMeta]
        · simp [h, hc, okRun, addEvent, sameMeta]

/-! ### Characterization of a successful staging and restore sweep -/

theorem generateStep_ok {s : PykeState} {f : Path} {c0 c : String}
    (hc0 : fsLookup s.fs f = some c0)
    (hfmt : formatAssemblyInfoFileContent s.assemblyInfo = Except.ok c) :
    generateStep s f =
      okRun { s with fs := fsWrite (fsWrite (fsWrite (fsRemove s.fs f) (buildTemp f) c0) f "") f c } := by
  unfold generateStep stRename stWrite andThen okRun catchIOErrorWith errRun
  simp [hc0, hfmt]

theorem generateStep_ok_lookup {s : PykeState} {f : Path} {c0 c : String}
    (hc0 : fsLookup s.fs f = some c0)
    (hfmt : formatAssemblyInfoFileContent s.assemblyInfo = Except.ok c) (q : Path) :
    fsLookup (generateStep s f).state.fs q =
      if q = f then some c else if q = buildTemp f then some c0 else fsLookup s.fs q := by
  rw [generateStep_ok hc0 hfmt]
  by_cases h1 : q = f <;> simp [okRun, fsLookup_fsWrite, fsLookup_fsRemove, h1]

theorem restoreStep_ok {s : PykeState} {f : Path} {cg cb : String}
    (hne : buildTemp f ≠ f)
    (hg : fsLookup s.fs f = some cg)
    (hb : fsLookup s.fs (buildTemp f) = some cb) :
    restoreStep s f =
      okRun { s with fs := fsWrite (fsRemove (fsRemove s.fs f) (buildTemp f)) f cb } := by
  unfold restoreStep stRemove stRename andThen okRun catchIOErrorWith errRun
  simp [hg, fsLookup_fsRemove, hne, hb]

theorem restoreStep_ok_lookup {s : PykeState} {f : Path} {cg cb : String}
    (hne : buildTemp f ≠ f)
    (hg : fsLookup s.fs f = some cg)
    (hb : fsLookup s.fs (buildTemp f) = some cb) (q : Path) :
    fsLookup (restoreStep s f).state.fs q =
      if q = f then some cb else if q = buildTemp f then none else fsLookup s.fs q := by
  rw [restoreStep_ok hne hg hb]
  by_cases h1 : q = f <;> simp [okRun, fsLookup_fsWrite, fsLookup_fsRemove, h1]

/-- After a staging sweep over distinct metadata files that all exist (and
with a descriptor the template can format), no error was raised, every file
holds the generated content, every backup holds the original content, and
every other path is untouched. -/
theorem generateLoop_spec (l : List Path) (s : PykeState) (c : String)
    (hnd : l.Nodup)
    (hlast : ∀ p ∈ l, p.getLast? = some "AssemblyInfo.cs")
    (hex : ∀ p ∈ l, (fsLookup s.fs p).isSome = true)
    (hfmt : formatAssemblyInfoFileContent s.assemblyInfo = Except.ok c) :
    (generateLoop l s).err = none ∧
    (∀ p ∈ l, fsLookup (generateLoop l s).state.fs p = some c ∧
              fsLookup (generateLoop l s).state.fs (buildTemp p) = fsLookup s.fs p) ∧
    (∀ q, q ∉ l → (∀ p ∈ l, q ≠ buildTemp p) →
              fsLookup (generateLoop l s).state.fs q = fsLookup s.fs q) := by
  induction l generalizing s with
  | nil => simp [generateLoop, okRun]
  | cons f rest ih =>
    have hfmem : f ∈ f :: rest := List.mem_cons_self f rest
    obtain ⟨c0, hc0⟩ := Option.isSome_iff_exists.mp (hex f hfmem)
    have hstep := @generateStep_ok s f c0 c hc0 hfmt
    have hstepl := @generateStep_ok_lookup s f c0 c hc0 hfmt
    have hnd' : rest.Nodup := (List.nodup_cons.mp hnd).2
    have hfnr : f ∉ rest := (List.nodup_cons.mp hnd).1
    have hlast' : ∀ p ∈ rest, p.getLast? = some "AssemblyInfo.cs" :=
      fun p hp => hlast p (List.mem_cons_of_mem f hp)
    have hlf := hlast f hfmem
    -- the state after the head step
    have hs1fs : ∀ q, fsLookup (generateStep s f).state.fs q =
        if q = f then some c else if q = buildTemp f then some c0 else fsLookup s.fs q := hstepl
    have hs1ai : (generateStep s f).state.assemblyInfo = s.assemblyInfo :=
      ((generateStep_meta s f).1).2.2.2.2.2.1
    have hex' : ∀ p ∈ rest, (fsLookup (generateStep s f).state.fs p).isSome = true := by
      intro p hp
      have hne1 : p ≠ f := fun h => hfnr (h ▸ hp)
      have hne2 : p ≠ buildTemp f := asm_ne_buildTemp (hlast' p hp) hlf
      rw [hs1fs p, if_neg hne1, if_neg hne2]
      exact hex p (List.mem_cons_of_mem f hp)
    have hfmt' : formatAssemblyInfoFileContent (generateStep s f).state.assemblyInfo = Except.ok c := by
      rw [hs1ai]
      exact hfmt
    obtain ⟨iherr, ihmem, ihfr⟩ := ih (generateStep s f).state hnd' hlast' hex' hfmt'
    have hloop : generateLoop (f :: rest) s = generateLoop rest (generateStep s f).state := by
      have h0 : generateLoop (f :: rest) s = andThen (generateStep s f) (generateLoop rest) := rfl
      rw [h0, hstep, andThen_of_ok rfl]
    rw [hloop]
    refine ⟨iherr, ?_, ?_⟩
    · intro p hp
      rcases List.mem_cons.mp hp with hpf | hpr
      · subst hpf
        have h1 : p ∉ rest := hfnr
        have h2 : ∀ p' ∈ rest, p ≠ buildTemp p' :=
          fun p' hp' => asm_ne_buildTemp hlf (hlast' p' hp')
        have h3 : buildTemp p ∉ rest := by
          intro hmem
          have hx := hlast' _ hmem
          rw [buildTemp_getLast hlf] at hx
          simp at hx
        have h4 : ∀ p' ∈ rest, buildTemp p ≠ buildTemp p' := by
          intro p' hp' heq
          exact hfnr ((buildTemp_inj hlf (hlast' p' hp') heq) ▸ hp')
        constructor
        · rw [ihfr p h1 h2, hs1fs p, if_pos rfl]
        · rw [ihfr (buildTemp p) h3 h4, hs1fs (buildTemp p),
            if_neg (Ne.symm (asm_ne_buildTemp hlf hlf)), if_pos rfl, hc0]
      · have hpf : p ≠ f := fun h => hfnr (h ▸ hpr)
        refine ⟨(ihmem p hpr).1, ?_⟩
        rw [(ihmem p hpr).2, hs1fs p, if_neg hpf,
          if_neg (asm_ne_buildTemp (hlast' p hpr) hlf)]
    · intro q hq1 hq2
      have hq1' : q ∉ rest := fun h => hq1 (List.mem_cons_of_mem f h)
      have hq2' : ∀ p ∈ rest, q ≠ buildTemp p :=
        fun p hp => hq2 p (List.mem_cons_of_mem f hp)
      have hqf : q ≠ f := fun h => hq1 (h ▸ hfmem)
      rw [ihfr q hq1' hq2', hs1fs q, if_neg hqf, if_neg (hq2 f hfmem)]

/-- After a restore sweep over distinct metadata files whose generated file
and backup both exist, no error was raised, every file again holds its
backup's content, every backup is gone, and every other path is untouched. -/
theorem restoreLoop_spec (l : List Path) (s : PykeState)
    (hnd : l.Nodup)
    (hlast : ∀ p ∈ l, p.getLast? = some "AssemblyInfo.cs")
    (hgen : ∀ p ∈ l, (fsLookup s.fs p).isSome = true)
    (hbak : ∀ p ∈ l, (fsLookup s.fs (buildTemp p)).isSome = true) :
    (restoreLoop l s).err = none ∧
    (∀ p ∈ l, fsLookup (restoreLoop l s).state.fs p = fsLookup s.fs (buildTemp p) ∧
              fsLookup (restoreLoop l s).state.fs (buildTemp p) = none) ∧
    (∀ q, q ∉ l → (∀ p ∈ l, q ≠ buildTemp p) →
              fsLookup (restoreLoop l s).state.fs q = fsLookup s.fs q) := by
  induction l generalizing s with
  | nil => simp [restoreLoop, okRun]
  | cons f rest ih =>
    have hfmem : f ∈ f :: rest := List.mem_cons_self f rest
    have hlf := hlast f hfmem
    have hne : buildTemp f ≠ f := Ne.symm (asm_ne_buildTemp hlf hlf)
    obtain ⟨cg, hcg⟩ := Option.isSome_iff_exists.mp (hgen f hfmem)
    obtain ⟨cb, hcb⟩ := Option.isSome_iff_exists.mp (hbak f hfmem)
    have hstep := @restoreStep_ok s f cg cb hne hcg hcb
    have hstepl := @restoreStep_ok_lookup s f cg cb hne hcg hcb
    have hnd' : rest.Nodup := (List.nodup_cons.mp hnd).2
    have hfnr : f ∉ rest := (List.nodup_cons.mp hnd).1
    have hlast' : ∀ p ∈ rest, p.getLast? = some "AssemblyInfo.cs" :=
      fun p hp => hlast p (List.mem_cons_of_mem f hp)
    have hgen' : ∀ p ∈ rest, (fsLookup (restoreStep s f).state.fs p).isSome = true := by
      intro p hp
      have hne1 : p ≠ f := fun h => hfnr (h ▸ hp)
      have hne2 : p ≠ buildTemp f := asm_ne_buildTemp (hlast' p hp) hlf
      rw [hstepl p, if_neg hne1, if_neg hne2]
      exact hgen p (List.mem_cons_of_mem f hp)
    have hbak' : ∀ p ∈ rest, (fsLookup (restoreStep s f).state.fs (buildTemp p)).isSome = true := by
      intro p hp
      have hne1 : buildTemp p ≠ f := Ne.symm (asm_ne_buildTemp hlf (hlast' p hp))
      have hne2 : buildTemp p ≠ buildTemp f := by
        intro heq
        exact hfnr ((buildTemp_inj (hlast' p hp) hlf heq) ▸ hp)
      rw [hstepl (buildTemp p), if_neg hne1, if_neg hne2]
      exact hbak p (List.mem_cons_of_mem f hp)
    obtain ⟨iherr, ihmem, ihfr⟩ := ih (restoreStep s f).state hnd' hlast' hgen' hbak'
    have hloop : restoreLoop (f :: rest) s = restoreLoop rest (restoreStep s f).state := by
      have h0 : restoreLoop (f :: rest) s = andThen (restoreStep s f) (restoreLoop rest) := rfl
      rw [h0, hstep, andThen_of_ok rfl]
    rw [hloop]
    refine ⟨iherr, ?_, ?_⟩
    · intro p hp
      rcases List.mem_cons.mp hp with hpf | hpr
      · subst hpf
        have h1 : p ∉ rest := hfnr
        have h2 : ∀ p' ∈ rest, p ≠ buildTemp p' :=
          fun p' hp' => asm_ne_buildTemp hlf (hlast' p' hp')
        have h3 : buildTemp p ∉ rest := by
          intro hmem
          have hx := hlast' _ hmem
          rw [buildTemp_getLast hlf] at hx
          simp at hx
        have h4 : ∀ p' ∈ rest, buildTemp p ≠ buildTemp p' := by
          intro p' hp' heq
          exact hfnr ((buildTemp_inj hlf (hlast' p' hp') heq) ▸ hp')
        constructor
        · rw [ihfr p h1 h2, hstepl p, if_pos rfl, hcb]
        · rw [ihfr (buildTemp p) h3 h4, hstepl (buildTemp p), if_neg hne, if_pos rfl]
      · have hpf : p ≠ f := fun h => hfnr (h ▸ hpr)
        constructor
        · rw [(ihmem p hpr).1, hstepl (buildTemp p),
            if_neg (Ne.symm (asm_ne_buildTemp hlf (hlast' p hpr))),
            if_neg (fun heq => hfnr ((buildTemp_inj (hlast' p hpr) hlf heq) ▸ hpr))]
        · exact (ihmem p hpr).2
    · intro q hq1 hq2
      have hq1' : q ∉ rest := fun h => hq1 (List.mem_cons_of_mem f h)
      have hq2' : ∀ p ∈ rest, q ≠ buildTemp p :=
        fun p hp => hq2 p (List.mem_cons_of_mem f hp)
      have hqf : q ≠ f := fun h => hq1 (h ▸ hfmem)
      rw [ihfr q hq1' hq2', hstepl q, if_neg hqf, if_neg (hq2 f hfmem)]

/-! ### Characterization of the discovery walk -/

mutual

/-- A path is produced by the `AssemblyInfo.cs` walk over a tree exactly when
it is the path of a file of that tree whose name is exactly `AssemblyInfo.cs`. -/
theorem memAsmT (pre : Path) (t : DirTree) (p : Path) :
    p ∈ getAssemblyInfoFilesT pre t ↔
      ((∃ c, (p, c) ∈ flattenT pre t) ∧ p.getLast? = some "AssemblyInfo.cs") := by
  cases t with
  | node files subdirs =>
    have hF := memAsmF pre subdirs p
    simp only [getAssemblyInfoFilesT, flattenT, List.mem_append, List.mem_map,
      fnmatchFilter, List.mem_filter, beq_iff_eq]
    constructor
    · rintro (⟨n, ⟨⟨e, he, rfl⟩, hn⟩, rfl⟩ | h)
      · refine ⟨⟨e.2, Or.inl ⟨e, he, rfl⟩⟩, ?_⟩
        rw [List.getLast?_concat, hn]
      · obtain ⟨⟨c, hc⟩, hlastp⟩ := hF.mp h
        exact ⟨⟨c, Or.inr hc⟩, hlastp⟩
    · rintro ⟨⟨c, hc | hc⟩, hlastp⟩
      · obtain ⟨e, he, heq⟩ := hc
        have hp : pre ++ [e.1] = p := congrArg Prod.fst heq
        have hn : e.1 = "AssemblyInfo.cs" := by
          rw [← hp] at hlastp
          simpa [List.getLast?_concat] using hlastp
        exact Or.inl ⟨e.1, ⟨⟨e, he, rfl⟩, hn⟩, hp⟩
      · exact Or.inr (hF.mpr ⟨⟨c, hc⟩, hlastp⟩)

/-- `memAsmT` continued over a list of subdirectories. -/
theorem memAsmF (pre : Path) (fo : DirForest) (p : Path) :
    p ∈ getAssemblyInfoFilesF pre fo ↔
      ((∃ c, (p, c) ∈ flattenF pre fo) ∧ p.getLast? = some "AssemblyInfo.cs") := by
  cases fo with
  | nil => simp [getAssemblyInfoFilesF, flattenF]
  | cons d t rest =>
    have hT := memAsmT (pre ++ [d]) t p
    have hR := memAsmF pre rest p
    simp only [getAssemblyInfoFilesF, flattenF, List.mem_append]
    constructor
    · rintro (h | h)
      · obtain ⟨⟨c, hc⟩, hlastp⟩ := hT.mp h
        exact ⟨⟨c, Or.inl hc⟩, hlastp⟩
      · obtain ⟨⟨c, hc⟩, hlastp⟩ := hR.mp h
        exact ⟨⟨c, Or.inr hc⟩, hlastp⟩
    · rintro ⟨⟨c, hc | hc⟩, hlastp⟩
      · exact Or.inl (hT.mpr ⟨⟨c, hc⟩, hlastp⟩)
      · exact Or.inr (hR.mpr ⟨⟨c, hc⟩, hlastp⟩)

end

/-- Every discovered metadata file is named `AssemblyInfo.cs`. -/
theorem asm_files_getLast (pre : Path) (t : DirTree) :
    ∀ p ∈ getAssemblyInfoFilesT pre t, p.getLast? = some "AssemblyInfo.cs" :=
  fun p hp => ((memAsmT pre t p).mp hp).2

/-- Every discovered metadata file exists in the filesystem the tree denotes. -/
theorem asm_files_exist (pre : Path) (t : DirTree) :
    ∀ p ∈ getAssemblyInfoFilesT pre t, (fsLookup (flattenT pre t) p).isSome = true := by
  intro p hp
  obtain ⟨⟨c, hc⟩, _⟩ := (memAsmT pre t p).mp hp
  exact fsLookup_isSome_of_mem hc

/-! ### Claim theorems -/

/-- C8: `getVersion` formats the wall-clock instant as `YYYY.MM.DD.HHMM` with
zero-padded month, day, hour and minute (each field two characters wide for
all in-range values), and at the instant 2012-01-14 23:17 it returns exactly
`"2012.01.14.2317"`. -/
theorem getVersion_format :
    getVersion ⟨2012, 1, 14, 23, 17⟩ = "2012.01.14.2317" ∧
    ∀ i : Instant, i.month < 100 → i.day < 100 → i.hour < 100 → i.minute < 100 →
      (getVersion i).length = (toString i.year).length + 11 := by
  constructor
  · rfl
  · intro i hm hd hh hmin
    have hp : ∀ n < 100, (pad2 n).length = 2 := by decide
    have hdot : ".".length = 1 := rfl
    simp only [getVersion, String.length_append, hp _ hm, hp _ hd, hp _ hh, hp _ hmin, hdot]

/-- Witness for C8: applies the padding property at a second concrete instant. -/
theorem getVersion_format_witness :
    getVersion ⟨2012, 1, 14, 23, 17⟩ = "2012.01.14.2317" ∧
    (getVersion ⟨1999, 12, 31, 23, 59⟩).length = 15 := by
  refine ⟨getVersion_format.1, ?_⟩
  have h := getVersion_format.2 ⟨1999, 12, 31, 23, 59⟩ (by decide) (by decide) (by decide) (by decide)
  rw [h]
  decide

/-- C7: the discovery walk returns exactly the files of the tree whose name
is exactly `AssemblyInfo.cs`, at any depth (a file with any other name is
never included), and returns the empty list — not an error — when no such
file exists. -/
theorem getAssemblyInfoFiles_exact :
    (∀ (pre : Path) (t : DirTree) (p : Path),
        p ∈ getAssemblyInfoFilesT pre t ↔
          ((∃ c, (p, c) ∈ flattenT pre t) ∧ p.getLast? = some "AssemblyInfo.cs")) ∧
    (∀ (pre : Path) (t : DirTree),
        (∀ p c, (p, c) ∈ flattenT pre t → p.getLast? ≠ some "AssemblyInfo.cs") →
        getAssemblyInfoFilesT pre t = []) := by
  refine ⟨memAsmT, ?_⟩
  intro pre t h
  rw [List.eq_nil_iff_forall_not_mem]
  intro p hp
  obtain ⟨⟨c, hc⟩, hl⟩ := (memAsmT pre t p).mp hp
  exact h p c hc hl

/-- The spec's discovery example: matches at depths 0, 1 and 3 plus a decoy
`AssemblyInfo.cs.bak`. -/
def discoveryExampleTree : DirTree :=
  DirTree.node [("AssemblyInfo.cs", "r0"), ("AssemblyInfo.cs.bak", "decoy")]
    (DirForest.cons "sub1"
      (DirTree.node [("AssemblyInfo.cs", "r1")]
        (DirForest.cons "sub2"
          (DirTree.node []
            (DirForest.cons "sub3" (DirTree.node [("AssemblyInfo.cs", "r3")] DirForest.nil)
              DirForest.nil))
          DirForest.nil))
      DirForest.nil)

/-- A tree with files but no `AssemblyInfo.cs`. -/
def discoveryNoMatchTree : DirTree :=
  DirTree.node [("readme.txt", "x")]
    (DirForest.cons "sub" (DirTree.node [("AssemblyInfo.cs.bak", "y")] DirForest.nil) DirForest.nil)

/-- Witness for C7: a depth-3 match is discovered, the decoy is not, and a
tree without matches yields the empty list. -/
theorem getAssemblyInfoFiles_exact_witness :
    ["sub1", "sub2", "sub3", "AssemblyInfo.cs"] ∈ getAssemblyInfoFilesT [] discoveryExampleTree ∧
    ["AssemblyInfo.cs.bak"] ∉ getAssemblyInfoFilesT [] discoveryExampleTree ∧
    getAssemblyInfoFilesT [] discoveryNoMatchTree = [] := by
  refine ⟨?_, ?_, ?_⟩
  · exact (getAssemblyInfoFiles_exact.1 [] discoveryExampleTree _).mpr
      ⟨⟨"r3", by decide⟩, by decide⟩
  · intro h
    have hx := (getAssemblyInfoFiles_exact.1 [] discoveryExampleTree _).mp h
    have := hx.2
    simp at this
  · refine getAssemblyInfoFiles_exact.2 [] discoveryNoMatchTree ?_
    intro p c h
    simp [discoveryNoMatchTree, flattenT, flattenF] at h
    rcases h with ⟨h1, h2⟩ | ⟨h1, h2⟩ <;> subst h1 <;> decide

/-- C9: in the no-match case, project-file resolution raises `TypeError`
(from `os.path.exists(None)`) instead of reaching the
"Unable to resolve path to the given project file" error the code intends. -/
theorem resolveProjectFilePath_no_match_typeError :
    resolveProjectFilePath [(["Other.txt"], "x")] [] "App.csproj"
      = Except.error (PyErr.typeError "coercing to Unicode: need string or buffer, NoneType found") ∧
    resolveProjectFilePath [(["Other.txt"], "x")] [] "App.csproj"
      ≠ Except.error (PyErr.exception "Unable to resolve path to the given project file") := by
  have h1 : resolveProjectFilePath [(["Other.txt"], "x")] [] "App.csproj"
      = Except.error (PyErr.typeError "coercing to Unicode: need string or buffer, NoneType found") := rfl
  refine ⟨h1, fun h => ?_⟩
  rw [h1] at h
  simp at h

/-- Everything `build` runs after assigning `self.assemblyInfo` and
`self.version` leaves those attributes (and the other object attributes)
unchanged, on success and on every error path. -/
theorem build_tail_meta (s1 : PykeState) (pf : String) (comp : CompilerBehavior) :
    sameMeta (andThen (generateAssemblyInfoFiles s1) (fun s2 =>
      andThen (compileProject s2 (some pf) comp) (fun s3 =>
        restoreOriginalAssemblyInfoFiles s3))).state s1 := by
  cases h : (generateAssemblyInfoFiles s1).err with
  | some e =>
    rw [andThen_of_err h]
    exact (generateLoop_meta s1.assemblyInfoFiles s1).1
  | none =>
    rw [andThen_of_ok h]
    have hg : sameMeta (generateAssemblyInfoFiles s1).state s1 :=
      (generateLoop_meta s1.assemblyInfoFiles s1).1
    cases h2 : (compileProject (generateAssemblyInfoFiles s1).state (some pf) comp).err with
    | some e =>
      rw [andThen_of_err h2]
      exact sameMeta_trans (compileProject_meta _ _ _) hg
    | none =>
      rw [andThen_of_ok h2]
      exact sameMeta_trans (restoreOriginal_meta _).1
        (sameMeta_trans (compileProject_meta _ _ _) hg)

/-- When `build` is called with a descriptor dict carrying a `Title`, the
object's `assemblyInfo` attribute ends up being exactly that dict with the
`Title` binding replaced by the annotated title, and `user` is untouched —
regardless of how the rest of the build goes. -/
theorem build_assemblyInfo {s : PykeState} {pf cfg : String} {v : Option String}
    {comp : CompilerBehavior} {d : Dict} {t' : String}
    (hT : dictLookup d "Title" = some t') :
    (build s (some pf) cfg (some d) v comp).state.assemblyInfo
      = dictSet d "Title" (annotateTitle t' cfg s.user) ∧
    (build s (some pf) cfg (some d) v comp).state.user = s.user := by
  have hb : build s (some pf) cfg (some d) v comp =
      andThen (generateAssemblyInfoFiles
        { s with assemblyInfo := dictSet d "Title" (annotateTitle t' cfg s.user),
                 version := resolveVersion s v }) (fun s2 =>
        andThen (compileProject s2 (some pf) comp) (fun s3 =>
          restoreOriginalAssemblyInfoFiles s3)) := by
    unfold build
    simp only [effectiveAssemblyInfo, hT]
  rw [hb]
  have hm := build_tail_meta
    { s with assemblyInfo := dictSet d "Title" (annotateTitle t' cfg s.user),
             version := resolveVersion s v } pf comp
  exact ⟨hm.2.2.2.2.2.1, hm.2.2.2.1⟩

/-- C10: when the caller passes a descriptor dict, `build` keeps that dict
(by reference) and overwrites its `Title` entry in place with the annotated
title; afterwards the dict the caller holds shows the annotated `Title`,
while every other key is unchanged. -/
theorem build_descriptor_mutated_in_place {s : PykeState} {pf cfg : String}
    {v : Option String} {comp : CompilerBehavior} {d : Dict} {t' : String}
    (hT : dictLookup d "Title" = some t') :
    dictLookup (build s (some pf) cfg (some d) v comp).state.assemblyInfo "Title"
      = some (annotateTitle t' cfg s.user) ∧
    ∀ k, k ≠ "Title" →
      dictLookup (build s (some pf) cfg (some d) v comp).state.assemblyInfo k
        = dictLookup d k := by
  obtain ⟨hai, _⟩ := build_assemblyInfo hT
  rw [hai]
  constructor
  · rw [dictLookup_dictSet]
    simp
  · intro k hk
    rw [dictLookup_dictSet, if_neg hk]

/-- Witness for C10: a concrete call observing the annotated `Title` and an
untouched `Version` key. -/
theorem build_descriptor_mutated_in_place_witness :
    dictLookup (build
        { basedir := [], buildOutputDir := ["BuildOutput"],
          fs := [(["P.csproj"], "proj")], assemblyInfoFiles := [],
          user := "Bob", now := ⟨2012, 1, 14, 23, 17⟩,
          assemblyInfo := [], version := "", events := [] }
        (some "P.csproj") "release" (some [("Title", "App"), ("Version", "1.0")])
        (some "9.9") (CompilerBehavior.exits 0)).state.assemblyInfo "Title"
      = some "App (compilation: release, built by: bob)" ∧
    dictLookup (build
        { basedir := [], buildOutputDir := ["BuildOutput"],
          fs := [(["P.csproj"], "proj")], assemblyInfoFiles := [],
          user := "Bob", now := ⟨2012, 1, 14, 23, 17⟩,
          assemblyInfo := [], version := "", events := [] }
        (some "P.csproj") "release" (some [("Title", "App"), ("Version", "1.0")])
        (some "9.9") (CompilerBehavior.exits 0)).state.assemblyInfo "Version"
      = some "1.0" := by
  have h := @build_descriptor_mutated_in_place
      { basedir := [], buildOutputDir := ["BuildOutput"],
        fs := [(["P.csproj"], "proj")], assemblyInfoFiles := [],
        user := "Bob", now := ⟨2012, 1, 14, 23, 17⟩,
        assemblyInfo := [], version := "", events := [] }
    "P.csproj" "release" (some "9.9") (CompilerBehavior.exits 0)
    [("Title", "App"), ("Version", "1.0")] "App" (by decide)
  refine ⟨?_, ?_⟩
  · rw [h.1]
    rfl
  · rw [h.2 "Version" (by decide)]
    rfl

/-- A concrete pyke object for the worked examples: root at `[]`, default
output directory, `getpass.getuser()` returning `"Bob"`. -/
def mkState (fs : FS) (files : List Path) : PykeState :=
  { basedir := [], buildOutputDir := ["BuildOutput"], fs := fs,
    assemblyInfoFiles := files, user := "Bob", now := ⟨2012, 1, 14, 23, 17⟩,
    assemblyInfo := [], version := "", events := [] }

/-- C4 counterexample: calling `build` twice, feeding the second call the same
descriptor dict the first call mutated, leaves a `Title` that carries the
annotation twice — not the once-per-supplied-title the claim requires. -/
theorem build_title_doubled_counterexample :
    dictLookup (build
        (build (mkState [(["P.csproj"], "proj")] [])
          (some "P.csproj") "release" (some [("Title", "App")]) (some "9.9")
          (CompilerBehavior.exits 0)).state
        (some "P.csproj") "release"
        (some (build (mkState [(["P.csproj"], "proj")] [])
          (some "P.csproj") "release" (some [("Title", "App")]) (some "9.9")
          (CompilerBehavior.exits 0)).state.assemblyInfo)
        (some "9.9") (CompilerBehavior.exits 0)).state.assemblyInfo "Title"
      = some ("App (compilation: release, built by: bob)"
          ++ " (compilation: release, built by: bob)") ∧
    ("App (compilation: release, built by: bob)"
          ++ " (compilation: release, built by: bob)" : String)
      ≠ annotateTitle "App" "release" "Bob" := by
  constructor
  · rfl
  · decide

/-- C4 (amended): the annotation is appended once per `build` call, so a
second call that reuses the mutated descriptor dict annotates the
already-annotated title again. -/
theorem build_title_reannotated_on_second_call {s : PykeState} {pf cfg : String}
    {v : Option String} {comp : CompilerBehavior} {pf2 : String} {v2 : Option String}
    {comp2 : CompilerBehavior} {d : Dict} {t' : String}
    (hT : dictLookup d "Title" = some t') :
    dictLookup (build (build s (some pf) cfg (some d) v comp).state (some pf2) cfg
        (some (build s (some pf) cfg (some d) v comp).state.assemblyInfo)
        v2 comp2).state.assemblyInfo "Title"
      = some (annotateTitle (annotateTitle t' cfg s.user) cfg s.user) := by
  obtain ⟨hai1, hu1⟩ := build_assemblyInfo hT
  have hT2 : dictLookup (build s (some pf) cfg (some d) v comp).state.assemblyInfo "Title"
      = some (annotateTitle t' cfg s.user) := by
    rw [hai1, dictLookup_dictSet]
    simp
  obtain ⟨hai2, _⟩ := build_assemblyInfo hT2
  rw [hai2, hu1, dictLookup_dictSet]
  simp

/-- Witness for the amended C4 at a concrete double call. -/
theorem build_title_reannotated_on_second_call_witness :
    dictLookup (build
        (build (mkState [] []) (some "A.csproj") "debug" (some [("Title", "T")])
          none CompilerBehavior.launchFailure).state
        (some "B.csproj") "debug"
        (some (build (mkState [] []) (some "A.csproj") "debug" (some [("Title", "T")])
          none CompilerBehavior.launchFailure).state.assemblyInfo)
        none CompilerBehavior.launchFailure).state.assemblyInfo "Title"
      = some (annotateTitle (annotateTitle "T" "debug" "Bob") "debug" "Bob") :=
  @build_title_reannotated_on_second_call (mkState [] []) "A.csproj" "debug"
    none CompilerBehavior.launchFailure "B.csproj" none CompilerBehavior.launchFailure
    [("Title", "T")] "T" (by decide)

/-- `restoreStep` touches only the file itself and its backup, whether or not
the step fails. -/
theorem restoreStep_frame (s : PykeState) (f q : Path) (h1 : q ≠ f) (h2 : q ≠ buildTemp f) :
    fsLookup (restoreStep s f).state.fs q = fsLookup s.fs q := by
  unfold restoreStep
  rw [catchIOErrorWith_state]
  cases hg : fsLookup s.fs f with
  | none => simp [stRemove, hg, andThen, errRun]
  | some cg =>
    simp only [stRemove, hg, andThen, okRun]
    cases hb : fsLookup (fsRemove s.fs f) (buildTemp f) with
    | none => simp [stRename, hb, errRun, fsLookup_fsRemove, h1]
    | some cb => simp [stRename, hb, okRun, fsLookup_fsWrite, fsLookup_fsRemove, h1, h2]

/-- C6 (amended): when deleting a generated file or renaming a backup fails
for a file, the restore sweep aborts right there: that single error
propagates (no aggregation), and every later file and backup is untouched. -/
theorem restoreLoop_aborts_on_first_failure {s : PykeState} {f : Path} {e : PyErr}
    (rest : List Path) (h : (restoreStep s f).err = some e) :
    (restoreLoop (f :: rest) s).err = some e ∧
    ∀ q, q ≠ f → q ≠ buildTemp f →
      fsLookup (restoreLoop (f :: rest) s).state.fs q = fsLookup s.fs q := by
  have h0 : restoreLoop (f :: rest) s = andThen (restoreStep s f) (restoreLoop rest) := rfl
  rw [h0, andThen_of_err h]
  exact ⟨h, fun q h1 h2 => restoreStep_frame s f q h1 h2⟩

/-- Witness for the amended C6: first backup missing, the error propagates
and the second file is untouched. -/
theorem restoreLoop_aborts_on_first_failure_witness :
    (restoreLoop [["a", "AssemblyInfo.cs"], ["b", "AssemblyInfo.cs"]]
        (mkState [(["a", "AssemblyInfo.cs"], "gen1"), (["b", "AssemblyInfo.cs"], "gen2"),
                  (["b", "AssemblyInfo.cs.build-temp"], "orig2")]
          [["a", "AssemblyInfo.cs"], ["b", "AssemblyInfo.cs"]])).err
      = some (PyErr.osError "No such file or directory") ∧
    fsLookup (restoreLoop [["a", "AssemblyInfo.cs"], ["b", "AssemblyInfo.cs"]]
        (mkState [(["a", "AssemblyInfo.cs"], "gen1"), (["b", "AssemblyInfo.cs"], "gen2"),
                  (["b", "AssemblyInfo.cs.build-temp"], "orig2")]
          [["a", "AssemblyInfo.cs"], ["b", "AssemblyInfo.cs"]])).state.fs
        ["b", "AssemblyInfo.cs"]
      = fsLookup (mkState [(["a", "AssemblyInfo.cs"], "gen1"), (["b", "AssemblyInfo.cs"], "gen2"),
                  (["b", "AssemblyInfo.cs.build-temp"], "orig2")]
          [["a", "AssemblyInfo.cs"], ["b", "AssemblyInfo.cs"]]).fs
        ["b", "AssemblyInfo.cs"] := by
  have h := @restoreLoop_aborts_on_first_failure
    (mkState [(["a", "AssemblyInfo.cs"], "gen1"), (["b", "AssemblyInfo.cs"], "gen2"),
                  (["b", "AssemblyInfo.cs.build-temp"], "orig2")]
          [["a", "AssemblyInfo.cs"], ["b", "AssemblyInfo.cs"]])
    ["a", "AssemblyInfo.cs"] (PyErr.osError "No such file or directory")
    [["b", "AssemblyInfo.cs"]] (by decide)
  exact ⟨h.1, h.2 ["b", "AssemblyInfo.cs"] (by decide) (by decide)⟩

/-- C6 counterexample: with the first file's backup missing and the second
file fully staged, `restoreOriginalAssemblyInfoFiles` raises at the first
file and never attempts the second — the claim's "continue and aggregate"
behavior does not happen. -/
theorem restore_no_aggregation_counterexample :
    (restoreOriginalAssemblyInfoFiles
        (mkState [(["a", "AssemblyInfo.cs"], "gen1"), (["b", "AssemblyInfo.cs"], "gen2"),
                  (["b", "AssemblyInfo.cs.build-temp"], "orig2")]
          [["a", "AssemblyInfo.cs"], ["b", "AssemblyInfo.cs"]])).err
      = some (PyErr.osError "No such file or directory") ∧
    fsLookup (restoreOriginalAssemblyInfoFiles
        (mkState [(["a", "AssemblyInfo.cs"], "gen1"), (["b", "AssemblyInfo.cs"], "gen2"),
                  (["b", "AssemblyInfo.cs.build-temp"], "orig2")]
          [["a", "AssemblyInfo.cs"], ["b", "AssemblyInfo.cs"]])).state.fs
        ["b", "AssemblyInfo.cs"] = some "gen2" ∧
    fsLookup (restoreOriginalAssemblyInfoFiles
        (mkState [(["a", "AssemblyInfo.cs"], "gen1"), (["b", "AssemblyInfo.cs"], "gen2"),
                  (["b", "AssemblyInfo.cs.build-temp"], "orig2")]
          [["a", "AssemblyInfo.cs"], ["b", "AssemblyInfo.cs"]])).state.fs
        ["b", "AssemblyInfo.cs.build-temp"] = some "orig2" :=
  ⟨rfl, rfl, rfl⟩

/-- C3: over any directory tree, staging all discovered metadata files
(rename each original to `<path>.build-temp`, write generated content at the
original path) and then restoring them (delete the generated file, rename
the backup back), with no intervening failure, yields a filesystem whose
metadata files are byte-identical to their pre-stage contents, with none of
the staged backups remaining, and with every other path untouched. -/
theorem stage_restore_roundtrip (t : DirTree) (s : PykeState)
    (hfiles : s.assemblyInfoFiles = getAssemblyInfoFilesT s.basedir t)
    (hfs : s.fs = flattenT s.basedir t)
    (hnd : s.assemblyInfoFiles.Nodup)
    (hfmt : ∃ c, formatAssemblyInfoFileContent s.assemblyInfo = Except.ok c) :
    (andThen (generateAssemblyInfoFiles s) restoreOriginalAssemblyInfoFiles).err = none ∧
    (∀ p ∈ s.assemblyInfoFiles,
        fsLookup (andThen (generateAssemblyInfoFiles s) restoreOriginalAssemblyInfoFiles).state.fs p
          = fsLookup s.fs p ∧
        fsLookup (andThen (generateAssemblyInfoFiles s) restoreOriginalAssemblyInfoFiles).state.fs
            (buildTemp p) = none) ∧
    (∀ q, q ∉ s.assemblyInfoFiles → (∀ p ∈ s.assemblyInfoFiles, q ≠ buildTemp p) →
        fsLookup (andThen (generateAssemblyInfoFiles s) restoreOriginalAssemblyInfoFiles).state.fs q
          = fsLookup s.fs q) := by
  obtain ⟨c, hc⟩ := hfmt
  have hlast : ∀ p ∈ s.assemblyInfoFiles, p.getLast? = some "AssemblyInfo.cs" := by
    rw [hfiles]
    exact asm_files_getLast s.basedir t
  have hex : ∀ p ∈ s.assemblyInfoFiles, (fsLookup s.fs p).isSome = true := by
    rw [hfiles, hfs]
    exact asm_files_exist s.basedir t
  obtain ⟨gerr, gmem, gfr⟩ :=
    generateLoop_spec s.assemblyInfoFiles s c hnd hlast hex hc
  have hGdef : generateAssemblyInfoFiles s = generateLoop s.assemblyInfoFiles s := rfl
  have hGerr : (generateAssemblyInfoFiles s).err = none := by
    rw [hGdef]
    exact gerr
  rw [andThen_of_ok hGerr]
  -- set up the restore over the staged state
  have hGfiles : (generateAssemblyInfoFiles s).state.assemblyInfoFiles = s.assemblyInfoFiles := by
    rw [hGdef]
    exact (generateLoop_meta s.assemblyInfoFiles s).1.2.2.1
  have hRdef : restoreOriginalAssemblyInfoFiles (generateAssemblyInfoFiles s).state
      = restoreLoop s.assemblyInfoFiles
          (addEvent (generateAssemblyInfoFiles s).state Event.restoreAttempt) := by
    unfold restoreOriginalAssemblyInfoFiles
    rw [hGfiles]
  have haddfs : (addEvent (generateAssemblyInfoFiles s).state Event.restoreAttempt).fs
      = (generateAssemblyInfoFiles s).state.fs := rfl
  have hgen' : ∀ p ∈ s.assemblyInfoFiles,
      (fsLookup (addEvent (generateAssemblyInfoFiles s).state Event.restoreAttempt).fs p).isSome = true := by
    intro p hp
    rw [haddfs]
    have := (gmem p hp).1
    rw [hGdef]
    rw [this]
    rfl
  have hbak' : ∀ p ∈ s.assemblyInfoFiles,
      (fsLookup (addEvent (generateAssemblyInfoFiles s).state Event.restoreAttempt).fs
        (buildTemp p)).isSome = true := by
    intro p hp
    rw [haddfs]
    rw [hGdef]
    rw [(gmem p hp).2]
    exact hex p hp
  obtain ⟨rerr, rmem, rfr⟩ :=
    restoreLoop_spec s.assemblyInfoFiles
      (addEvent (generateAssemblyInfoFiles s).state Event.restoreAttempt)
      hnd hlast hgen' hbak'
  rw [hRdef]
  refine ⟨rerr, ?_, ?_⟩
  · intro p hp
    have h1 := (rmem p hp).1
    have h2 := (rmem p hp).2
    rw [haddfs, hGdef, (gmem p hp).2] at h1
    exact ⟨h1, h2⟩
  · intro q hq1 hq2
    have h1 := rfr q hq1 hq2
    rw [haddfs, hGdef, gfr q hq1 hq2] at h1
    exact h1

/-- Witness for C3: a concrete tree with metadata files at depths 0, 1 and 3
round-trips: the depth-1 file keeps its bytes, its backup is gone, and the
decoy file is untouched. -/
theorem stage_restore_roundtrip_witness :
    (andThen (generateAssemblyInfoFiles
        { basedir := [], buildOutputDir := ["BuildOutput"],
          fs := flattenT [] discoveryExampleTree,
          assemblyInfoFiles := getAssemblyInfoFilesT [] discoveryExampleTree,
          user := "Bob", now := ⟨2012, 1, 14, 23, 17⟩,
          assemblyInfo := defaultAssemblyInfo "debug", version := "", events := [] })
      restoreOriginalAssemblyInfoFiles).err = none ∧
    fsLookup (andThen (generateAssemblyInfoFiles
        { basedir := [], buildOutputDir := ["BuildOutput"],
          fs := flattenT [] discoveryExampleTree,
          assemblyInfoFiles := getAssemblyInfoFilesT [] discoveryExampleTree,
          user := "Bob", now := ⟨2012, 1, 14, 23, 17⟩,
          assemblyInfo := defaultAssemblyInfo "debug", version := "", events := [] })
      restoreOriginalAssemblyInfoFiles).state.fs ["sub1", "AssemblyInfo.cs"] = some "r1" ∧
    fsLookup (andThen (generateAssemblyInfoFiles
        { basedir := [], buildOutputDir := ["BuildOutput"],
          fs := flattenT [] discoveryExampleTree,
          assemblyInfoFiles := getAssemblyInfoFilesT [] discoveryExampleTree,
          user := "Bob", now := ⟨2012, 1, 14, 23, 17⟩,
          assemblyInfo := defaultAssemblyInfo "debug", version := "", events := [] })
      restoreOriginalAssemblyInfoFiles).state.fs ["sub1", "AssemblyInfo.cs.build-temp"] = none ∧
    fsLookup (andThen (generateAssemblyInfoFiles
        { basedir := [], buildOutputDir := ["BuildOutput"],
          fs := flattenT [] discoveryExampleTree,
          assemblyInfoFiles := getAssemblyInfoFilesT [] discoveryExampleTree,
          user := "Bob", now := ⟨2012, 1, 14, 23, 17⟩,
          assemblyInfo := defaultAssemblyInfo "debug", version := "", events := [] })
      restoreOriginalAssemblyInfoFiles).state.fs ["AssemblyInfo.cs.bak"] = some "decoy" := by
  have h := stage_restore_roundtrip discoveryExampleTree
    { basedir := [], buildOutputDir := ["BuildOutput"],
      fs := flattenT [] discoveryExampleTree,
      assemblyInfoFiles := getAssemblyInfoFilesT [] discoveryExampleTree,
      user := "Bob", now := ⟨2012, 1, 14, 23, 17⟩,
      assemblyInfo := defaultAssemblyInfo "debug", version := "", events := [] }
    rfl rfl (by decide) ⟨_, rfl⟩
  refine ⟨h.1, ?_, ?_, ?_⟩
  · have hx := (h.2.1 ["sub1", "AssemblyInfo.cs"] (by decide)).1
    rw [hx]
    rfl
  · exact (h.2.1 ["sub1", "AssemblyInfo.cs"] (by decide)).2
  · have hx := h.2.2 ["AssemblyInfo.cs.bak"] (by decide) (by decide)
    rw [hx]
    rfl

/-- C1 counterexample: with the metadata file staged but no project file
anywhere under the root, `build` terminates by the resolution exception and
no restore is ever attempted — the staged backup and the generated file are
both left on disk. -/
theorem build_skips_restore_counterexample :
    (build (mkState [(["AssemblyInfo.cs"], "orig")] [["AssemblyInfo.cs"]])
        (some "P.csproj") "release" none (some "9.9") (CompilerBehavior.exits 0)).err
      = some (PyErr.typeError "coercing to Unicode: need string or buffer, NoneType found") ∧
    Event.restoreAttempt ∉ (build (mkState [(["AssemblyInfo.cs"], "orig")] [["AssemblyInfo.cs"]])
        (some "P.csproj") "release" none (some "9.9") (CompilerBehavior.exits 0)).state.events ∧
    fsLookup (build (mkState [(["AssemblyInfo.cs"], "orig")] [["AssemblyInfo.cs"]])
        (some "P.csproj") "release" none (some "9.9") (CompilerBehavior.exits 0)).state.fs
        ["AssemblyInfo.cs.build-temp"] = some "orig" ∧
    fsLookup (build (mkState [(["AssemblyInfo.cs"], "orig")] [["AssemblyInfo.cs"]])
        (some "P.csproj") "release" none (some "9.9") (CompilerBehavior.exits 0)).state.fs
        ["AssemblyInfo.cs"] ≠ some "orig" := by
  refine ⟨rfl, by decide, rfl, by decide⟩

/-- C1 (amended): whenever the external compiler is actually invoked and
returns an exit status, a restore attempt happens before `build` terminates
(on the success, recognized-failure and unrecognized-failure paths alike);
the paths that raise before a status is produced skip the restore. -/
theorem build_restore_follows_compiler (s : PykeState) (pf : Option String)
    (cfg : String) (ai : Option Dict) (v : Option String) (comp : CompilerBehavior)
    (h0 : s.events = []) :
    (∃ code, Event.compilerRun code ∈ (build s pf cfg ai v comp).state.events) →
    Event.restoreAttempt ∈ (build s pf cfg ai v comp).state.events := by
  intro hcomp
  obtain ⟨code0, hmem⟩ := hcomp
  cases pf with
  | none =>
    simp only [build] at hmem
    rw [show (errRun s (PyErr.exception "No project or solution file specified")).state.events
        = s.events from rfl, h0] at hmem
    cases hmem
  | some pf =>
    cases hT : dictLookup (effectiveAssemblyInfo cfg ai) "Title" with
    | none =>
      simp only [build, hT] at hmem
      rw [show (errRun s (PyErr.keyError "Title")).state.events = s.events from rfl, h0] at hmem
      cases hmem
    | some t =>
      have hb : build s (some pf) cfg ai v comp =
          andThen (generateAssemblyInfoFiles
            { s with assemblyInfo := dictSet (effectiveAssemblyInfo cfg ai) "Title"
                       (annotateTitle t cfg s.user),
                     version := resolveVersion s v }) (fun s2 =>
            andThen (compileProject s2 (some pf) comp) (fun s3 =>
              restoreOriginalAssemblyInfoFiles s3)) := by
        unfold build
        simp only [hT]
      rw [hb] at hmem ⊢
      set s1 : PykeState :=
        { s with assemblyInfo := dictSet (effectiveAssemblyInfo cfg ai) "Title"
                   (annotateTitle t cfg s.user),
                 version := resolveVersion s v } with hs1
      have hs1e : s1.events = [] := h0
      cases hG : (generateAssemblyInfoFiles s1).err with
      | some e =>
        rw [andThen_of_err hG] at hmem
        rw [show (generateAssemblyInfoFiles s1).state.events = s1.events from
          (generateLoop_meta s1.assemblyInfoFiles s1).2, hs1e] at hmem
        cases hmem
      | none =>
        rw [andThen_of_ok hG] at hmem ⊢
        have hGe : (generateAssemblyInfoFiles s1).state.events = [] :=
          ((generateLoop_meta s1.assemblyInfoFiles s1).2).trans hs1e
        set sg := (generateAssemblyInfoFiles s1).state with hsg
        cases hR : resolveProjectFilePath sg.fs sg.basedir pf with
        | error e =>
          have hcp : compileProject sg (some pf) comp = errRun sg e := by
            simp only [compileProject]
            rw [hR]
          rw [hcp, andThen_of_err rfl] at hmem
          rw [show (errRun sg e).state.events = sg.events from rfl, hGe] at hmem
          cases hmem
        | ok p =>
          cases comp with
          | launchFailure =>
            have hcp : compileProject sg (some pf) CompilerBehavior.launchFailure
                = errRun { sg with fs := cleanOutputDir sg.fs sg.buildOutputDir }
                    (PyErr.osError "cannot launch compiler executable") := by
              simp only [compileProject]
              rw [hR]
            rw [hcp, andThen_of_err rfl] at hmem
            rw [show (errRun { sg with fs := cleanOutputDir sg.fs sg.buildOutputDir }
                (PyErr.osError "cannot launch compiler executable")).state.events
                = sg.events from rfl, hGe] at hmem
            cases hmem
          | exits code =>
            by_cases hc : code = 1
            · have hcp : compileProject sg (some pf) (CompilerBehavior.exits code)
                  = restoreOriginalAssemblyInfoFiles
                      (addEvent { sg with fs := cleanOutputDir sg.fs sg.buildOutputDir }
                        (Event.compilerRun code)) := by
                simp only [compileProject]
                rw [hR]
                simp only [hc, if_true]
              rw [hcp]
              cases hrest : (restoreOriginalAssemblyInfoFiles
                  (addEvent { sg with fs := cleanOutputDir sg.fs sg.buildOutputDir }
                    (Event.compilerRun code))).err with
              | some e2 =>
                rw [andThen_of_err hrest]
                exact restoreAttempt_mem_restoreOriginal _
              | none =>
                rw [andThen_of_ok hrest]
                exact restoreAttempt_mem_restoreOriginal _
            · have hcp : compileProject sg (some pf) (CompilerBehavior.exits code)
                  = okRun (addEvent { sg with fs := cleanOutputDir sg.fs sg.buildOutputDir }
                      (Event.compilerRun code)) := by
                simp only [compileProject]
                rw [hR]
                simp only [hc, if_false]
              rw [hcp, andThen_of_ok rfl]
              exact restoreAttempt_mem_restoreOriginal _

/-- Witness for the amended C1: a complete concrete run on which the compiler
exits with status 2 and a restore attempt is in the trace. -/
theorem build_restore_follows_compiler_witness :
    Event.restoreAttempt ∈ (build (mkState [(["P.csproj"], "proj")] [])
        (some "P.csproj") "release" none (some "9.9")
        (CompilerBehavior.exits 2)).state.events :=
  build_restore_follows_compiler (mkState [(["P.csproj"], "proj")] [])
    (some "P.csproj") "release" none (some "9.9") (CompilerBehavior.exits 2)
    rfl ⟨2, by decide⟩

/-- C2: with one discovered and staged metadata file and a compiler that
exits with status 1, `build` does not leave the file restored: the restore
inside `compileProject` puts the original back, and `build`'s unconditional
second restore then deletes it again and raises an uncaught `OSError` when
renaming the now-missing backup — the original file ends up missing. -/
theorem build_exit1_deletes_original :
    (build (mkState [(["AssemblyInfo.cs"], "orig"), (["P.csproj"], "proj")] [["AssemblyInfo.cs"]])
        (some "P.csproj") "release" none (some "9.9") (CompilerBehavior.exits 1)).err
      = some (PyErr.osError "No such file or directory") ∧
    fsLookup (build (mkState [(["AssemblyInfo.cs"], "orig"), (["P.csproj"], "proj")] [["AssemblyInfo.cs"]])
        (some "P.csproj") "release" none (some "9.9") (CompilerBehavior.exits 1)).state.fs
        ["AssemblyInfo.cs"] = none ∧
    fsLookup (build (mkState [(["AssemblyInfo.cs"], "orig"), (["P.csproj"], "proj")] [["AssemblyInfo.cs"]])
        (some "P.csproj") "release" none (some "9.9") (CompilerBehavior.exits 1)).state.fs
        ["AssemblyInfo.cs.build-temp"] = none :=
  ⟨rfl, rfl, rfl⟩

/-- C5 counterexample: the compiler exits with the nonzero status 2, yet
`build` returns normally — no `CompileFailed` (indeed no error at all) is
surfaced to the caller. -/
theorem build_exit2_no_error_counterexample :
    (build (mkState [(["AssemblyInfo.cs"], "orig"), (["P.csproj"], "proj")] [["AssemblyInfo.cs"]])
        (some "P.csproj") "release" none (some "9.9") (CompilerBehavior.exits 2)).err = none ∧
    fsLookup (build (mkState [(["AssemblyInfo.cs"], "orig"), (["P.csproj"], "proj")] [["AssemblyInfo.cs"]])
        (some "P.csproj") "release" none (some "9.9") (CompilerBehavior.exits 2)).state.fs
        ["AssemblyInfo.cs"] = some "orig" :=
  ⟨rfl, rfl⟩

/-- C5 (amended): `compileProject` compares the exit status only against `1`
and no `CompileFailed`-style error exists anywhere: for every exit status
other than `1` — success `0` and every other nonzero code alike — `build`
returns normally with `self.version` holding the resolved version token and
the metadata files restored.  (With exit status `1`, the extra restore inside
`compileProject` plus `build`'s unconditional restore instead destroy the
originals and raise `OSError`; see the status-1 evaluation elsewhere in this
development.) -/
theorem build_nonone_exit_returns_normally (s : PykeState) (pf cfg : String)
    (ai : Option Dict) (v : Option String) (code : Int) (t' c : String)
    (hnd : s.assemblyInfoFiles.Nodup)
    (hlast : ∀ p ∈ s.assemblyInfoFiles, p.getLast? = some "AssemblyInfo.cs")
    (hex : ∀ p ∈ s.assemblyInfoFiles, (fsLookup s.fs p).isSome = true)
    (hT : dictLookup (effectiveAssemblyInfo cfg ai) "Title" = some t')
    (hfmt : formatAssemblyInfoFileContent
        (dictSet (effectiveAssemblyInfo cfg ai) "Title" (annotateTitle t' cfg s.user))
      = Except.ok c)
    (hproj : (fsLookup s.fs (s.basedir ++ [pf])).isSome = true)
    (hpd1 : s.basedir ++ [pf] ∉ s.assemblyInfoFiles)
    (hpd2 : ∀ f ∈ s.assemblyInfoFiles, s.basedir ++ [pf] ≠ buildTemp f)
    (hout : ∀ f ∈ s.assemblyInfoFiles,
        pathUnder s.buildOutputDir f = false ∧ pathUnder s.buildOutputDir (buildTemp f) = false)
    (hcode : code ≠ 1) :
    (build s (some pf) cfg ai v (CompilerBehavior.exits code)).err = none ∧
    (build s (some pf) cfg ai v (CompilerBehavior.exits code)).state.version
      = resolveVersion s v ∧
    (∀ p ∈ s.assemblyInfoFiles,
        fsLookup (build s (some pf) cfg ai v (CompilerBehavior.exits code)).state.fs p
          = fsLookup s.fs p ∧
        fsLookup (build s (some pf) cfg ai v (CompilerBehavior.exits code)).state.fs (buildTemp p)
          = none) := by
  have hb : build s (some pf) cfg ai v (CompilerBehavior.exits code) =
      andThen (generateAssemblyInfoFiles
        { s with assemblyInfo := dictSet (effectiveAssemblyInfo cfg ai) "Title"
                   (annotateTitle t' cfg s.user),
                 version := resolveVersion s v }) (fun s2 =>
        andThen (compileProject s2 (some pf) (CompilerBehavior.exits code)) (fun s3 =>
          restoreOriginalAssemblyInfoFiles s3)) := by
    unfold build
    simp only [hT]
  rw [hb]
  set s1 : PykeState :=
    { s with assemblyInfo := dictSet (effectiveAssemblyInfo cfg ai) "Title"
               (annotateTitle t' cfg s.user),
             version := resolveVersion s v } with hs1
  -- staging succeeds and is characterized by generateLoop_spec
  have hs1fs : s1.fs = s.fs := rfl
  have hs1files : s1.assemblyInfoFiles = s.assemblyInfoFiles := rfl
  obtain ⟨gerr, gmem, gfr⟩ := generateLoop_spec s.assemblyInfoFiles s1 c hnd hlast hex hfmt
  have hG : (generateAssemblyInfoFiles s1).err = none := by
    have hgd : generateAssemblyInfoFiles s1 = generateLoop s.assemblyInfoFiles s1 := rfl
    rw [hgd]
    exact gerr
  rw [andThen_of_ok hG]
  set sg := (generateAssemblyInfoFiles s1).state with hsg
  have hgd2 : sg = (generateLoop s.assemblyInfoFiles s1).state := rfl
  have hsgmeta := generateLoop_meta s.assemblyInfoFiles s1
  have hsgbase : sg.basedir = s.basedir := hsgmeta.1.1
  have hsgout : sg.buildOutputDir = s.buildOutputDir := hsgmeta.1.2.1
  have hsgfiles : sg.assemblyInfoFiles = s.assemblyInfoFiles := hsgmeta.1.2.2.1
  have hsgver : sg.version = resolveVersion s v := hsgmeta.1.2.2.2.2.2.2
  -- the direct project path still exists in the staged filesystem
  have hdirect : (fsLookup sg.fs (sg.basedir ++ [pf])).isSome = true := by
    rw [hsgbase, hgd2, gfr (s.basedir ++ [pf]) hpd1 hpd2]
    exact hproj
  have hR : resolveProjectFilePath sg.fs sg.basedir pf
      = Except.ok (sg.basedir ++ [pf]) := by
    simp [resolveProjectFilePath, osPathExists, hdirect]
  have hcp : compileProject sg (some pf) (CompilerBehavior.exits code)
      = okRun (addEvent { sg with fs := cleanOutputDir sg.fs sg.buildOutputDir }
          (Event.compilerRun code)) := by
    simp only [compileProject]
    rw [hR]
    simp only [hcode, if_false]
  rw [hcp, andThen_of_ok rfl]
  simp only [okRun]
  set s2 : PykeState := addEvent { sg with fs := cleanOutputDir sg.fs sg.buildOutputDir }
    (Event.compilerRun code) with hs2
  have hs2fs : s2.fs = cleanOutputDir sg.fs sg.buildOutputDir := rfl
  have hs2files : s2.assemblyInfoFiles = s.assemblyInfoFiles := hsgfiles
  have hs2ver : s2.version = resolveVersion s v := hsgver
  -- the restore sweep
  have hRdef : restoreOriginalAssemblyInfoFiles s2
      = restoreLoop s.assemblyInfoFiles (addEvent s2 Event.restoreAttempt) := by
    unfold restoreOriginalAssemblyInfoFiles
    rw [hs2files]
  set s3 : PykeState := addEvent s2 Event.restoreAttempt with hs3
  have hs3fs : s3.fs = cleanOutputDir sg.fs sg.buildOutputDir := rfl
  -- lookups in the pre-restore filesystem
  have hpre : ∀ p ∈ s.assemblyInfoFiles,
      fsLookup s3.fs p = some c ∧ fsLookup s3.fs (buildTemp p) = fsLookup s.fs p := by
    intro p hp
    constructor
    · rw [hs3fs, fsLookup_cleanOutputDir sg.fs sg.buildOutputDir p
        (by rw [hsgout]; exact (hout p hp).1), hgd2]
      exact (gmem p hp).1
    · rw [hs3fs, fsLookup_cleanOutputDir sg.fs sg.buildOutputDir (buildTemp p)
        (by rw [hsgout]; exact (hout p hp).2), hgd2]
      exact (gmem p hp).2
  have hgen' : ∀ p ∈ s.assemblyInfoFiles, (fsLookup s3.fs p).isSome = true := by
    intro p hp
    rw [(hpre p hp).1]
    rfl
  have hbak' : ∀ p ∈ s.assemblyInfoFiles, (fsLookup s3.fs (buildTemp p)).isSome = true := by
    intro p hp
    rw [(hpre p hp).2]
    exact hex p hp
  obtain ⟨rerr, rmem, rfr⟩ := restoreLoop_spec s.assemblyInfoFiles s3 hnd hlast hgen' hbak'
  rw [hRdef]
  have hrmeta := restoreLoop_meta s.assemblyInfoFiles s3
  refine ⟨rerr, ?_, ?_⟩
  · rw [hrmeta.1.2.2.2.2.2.2]
    exact hs2ver
  · intro p hp
    constructor
    · rw [(rmem p hp).1, (hpre p hp).2]
    · exact (rmem p hp).2

/-- Witness for the amended C5: a concrete full run with exit status 2
returns normally, with the version token stored and the file restored. -/
theorem build_nonone_exit_returns_normally_witness :
    (build (mkState [(["AssemblyInfo.cs"], "orig"), (["P.csproj"], "proj")] [["AssemblyInfo.cs"]])
        (some "P.csproj") "release" none (some "9.9") (CompilerBehavior.exits 2)).err = none ∧
    (build (mkState [(["AssemblyInfo.cs"], "orig"), (["P.csproj"], "proj")] [["AssemblyInfo.cs"]])
        (some "P.csproj") "release" none (some "9.9") (CompilerBehavior.exits 2)).state.version
      = "9.9" ∧
    fsLookup (build (mkState [(["AssemblyInfo.cs"], "orig"), (["P.csproj"], "proj")] [["AssemblyInfo.cs"]])
        (some "P.csproj") "release" none (some "9.9") (CompilerBehavior.exits 2)).state.fs
        ["AssemblyInfo.cs"] = fsLookup (mkState [(["AssemblyInfo.cs"], "orig"), (["P.csproj"], "proj")]
          [["AssemblyInfo.cs"]]).fs ["AssemblyInfo.cs"] := by
  have h := build_nonone_exit_returns_normally
    (mkState [(["AssemblyInfo.cs"], "orig"), (["P.csproj"], "proj")] [["AssemblyInfo.cs"]])
    "P.csproj" "release" none (some "9.9") 2 ""
    (assemblyInfoTemplate "false" "false"
      (annotateTitle "" "release" "Bob") "" "" "" "" "1.0" "1.0 (release)" "1.0")
    (by decide) (by decide) (by decide) (by decide) rfl (by decide)
    (by decide) (by decide) (by decide) (by decide)
  exact ⟨h.1, h.2.1, (h.2.2 ["AssemblyInfo.cs"] (by decide)).1⟩

end Pyke
